import Mathlib

/-!
Shallow embedding of the vehicle-control subsystem of `rov-22`
(`src/vehicle/vehicle_control.py`), sufficient to settle the frozen claims
about connection/heartbeat tracking, arm/disarm lifecycle, RC-channel command
encoding and validation, and relay command gating.

Modelling conventions:
- Python `float` values are modelled as `ℚ`; `time.time()` timestamps as `ℚ`.
- Python `int` is `ℤ` (for PWM values and channel ids) or `ℕ` (for fields that
  are non-negative on the wire, such as `base_mode` and relay pin numbers).
- `round` is Python 3 `round`: round-half-to-even (banker's rounding).
- A method that may raise `ValueError` returns `Except String α`; `.error`
  means the exception propagates and nothing after the raise point runs.
- Outbound traffic is modelled as a trace of `Msg` values, one per attempted
  transmission; `mavlink` sends and the relay-socket `sendall` each append one
  message.  A relay `sendall` that raises is caught and logged in the source;
  we model the success/failure of each relay send by a boolean oracle, and a
  failed send contributes no message.
- Qt signal emissions are modelled as a trace of `Event` values.
-/

namespace VehicleControl

/-- Source `class InputChannel(enum.Enum)`. -/
inductive InputChannel
  | PITCH | ROLL | THROTTLE | YAW | FORWARD | LATERAL
  | PAN_CAMERA | TILT_CAMERA | LIGHTS_1 | LIGHTS_2 | VIDEO_SWITCH
  deriving DecidableEq, Repr

/-- The numeric channel id bound to each `InputChannel` member. -/
def InputChannel.value : InputChannel → ℤ
  | .PITCH => 1
  | .ROLL => 2
  | .THROTTLE => 3
  | .YAW => 4
  | .FORWARD => 5
  | .LATERAL => 6
  | .PAN_CAMERA => 7
  | .TILT_CAMERA => 8
  | .LIGHTS_1 => 9
  | .LIGHTS_2 => 10
  | .VIDEO_SWITCH => 11

/-- Source `class Relay(enum.Enum)`: each member is a hardware pin. -/
inductive Relay
  | PVC_FRONT | CLAW_FRONT | PVC_BACK | CLAW_BACK | MAGNET | LIGHTS
  deriving DecidableEq, Repr

/-- The hardware pin number bound to each `Relay` member. -/
def Relay.value : Relay → ℕ
  | .PVC_FRONT => 1
  | .CLAW_FRONT => 4
  | .PVC_BACK => 2
  | .CLAW_BACK => 3
  | .MAGNET => 0
  | .LIGHTS => 5

/-- Python `for relay in Relay` iterates the members in definition order. -/
def Relay.all : List Relay :=
  [.PVC_FRONT, .CLAW_FRONT, .PVC_BACK, .CLAW_BACK, .MAGNET, .LIGHTS]

/-- The four Qt signals of `VehicleControl`. -/
inductive Event
  | connected | disconnected | armed | disarmed
  deriving DecidableEq, Repr

/-- One outbound transmission.  `rcOverride`, `armRequest` and
`disarmRequest` go out on the telemetry (mavlink) link; `relay` is the 2-byte
`[pin, state]` message on the relay TCP socket. -/
inductive Msg
  | rcOverride (channels : List ℤ)
  | armRequest
  | disarmRequest
  | relay (pin : ℕ) (state : ℕ)
  deriving DecidableEq, Repr

/-- Whether a message travels on the telemetry (mavlink) socket. -/
def Msg.isTelemetry : Msg → Bool
  | .rcOverride _ => true
  | .armRequest => true
  | .disarmRequest => true
  | .relay _ _ => false

/-- An inbound heartbeat message; only its `base_mode` field is read. -/
structure Heartbeat where
  base_mode : ℕ
  deriving DecidableEq, Repr

/-- The mutable state of a `VehicleControl` instance.
`lastMsgTime` is `self.last_msg_time` (initially `None`),
`connected`/`armed` are the two flags, and `relayConnectAttempted` records
whether `self.socket.connect_ex` has been called (done inside `arm()`). -/
structure State where
  lastMsgTime : Option ℚ
  connected : Bool
  armed : Bool
  relayConnectAttempted : Bool
  deriving DecidableEq, Repr

/-- Constructor `__init__`: `last_msg_time = None`, `connected = False`, `armed = False`. -/
def State.init : State :=
  { lastMsgTime := none, connected := false, armed := false
    relayConnectAttempted := false }

/-- Source constant `TIMEOUT = 2` seconds. -/
def TIMEOUT : ℚ := 2

/-- Method `update(self)`: one non-blocking receive attempt.  `msg` is the heartbeat
received (or `none`); `now` is the value of `time.time()` during this call.
Returns the new state and the list of signals emitted, in emission order.

In the no-message branch the source evaluates
`self.connected and time.time() - self.last_msg_time > TIMEOUT`; the `and`
short-circuits, so `last_msg_time` is only read when `connected` is true, and
whenever `connected` is true `last_msg_time` has been set by a previous
received message.  We pattern-match on `lastMsgTime` first, which agrees with
the source on every state reachable from `State.init`. -/
def update (s : State) (msg : Option Heartbeat) (now : ℚ) : State × List Event :=
  match msg with
  | some m =>
      let connEvs : List Event := if s.connected then [] else [.connected]
      let armed : Bool := m.base_mode &&& 0x80 == 0x80
      let armEvs : List Event :=
        if armed != s.armed then (if armed then [.armed] else [.disarmed]) else []
      ({ s with lastMsgTime := some now, connected := true, armed := armed },
       connEvs ++ armEvs)
  | none =>
      match s.lastMsgTime with
      | some t =>
          if s.connected ∧ now - t > TIMEOUT then
            ({ s with connected := false }, [.disconnected])
          else (s, [])
      | none => (s, [])

/-- Method `arm(self)`: `self.link.arducopter_arm()` sends an arm request, then
`self.socket.connect_ex((HOST, PORT))` attempts the relay connection. -/
def arm (s : State) : State × List Msg :=
  ({ s with relayConnectAttempted := true }, [.armRequest])

/-- Method `set_relay(self, relay, state)`.  `sendOk` tells whether
`self.socket.sendall` succeeds; when it raises, the exception is caught and
logged, so the call still returns normally but no message goes out. -/
def set_relay (s : State) (relay : Relay) (state : Bool) (sendOk : Bool) :
    State × List Msg :=
  if !s.connected || (!s.armed && state) then (s, [])
  else if sendOk then (s, [.relay relay.value (if state then 1 else 0)])
  else (s, [])

/-- The body of `turn_off_relays`: `for relay in Relay: self.set_relay(relay, False)`,
generalized over the list still to visit.  `oks` gives each relay's
`sendall` outcome. -/
def relayLoop (s : State) (oks : Relay → Bool) : List Relay → State × List Msg
  | [] => (s, [])
  | r :: rest =>
      let step := set_relay s r false (oks r)
      let tail := relayLoop step.1 oks rest
      (tail.1, step.2 ++ tail.2)

/-- Method `turn_off_relays(self)`. -/
def turn_off_relays (s : State) (oks : Relay → Bool) : State × List Msg :=
  relayLoop s oks Relay.all

/-- Method `disarm(self)`: `self.turn_off_relays()` first, then
`self.link.arducopter_disarm()` sends the disarm request. -/
def disarm (s : State) (oks : Relay → Bool) : State × List Msg :=
  let off := turn_off_relays s oks
  (off.1, off.2 ++ [.disarmRequest])

/-- The validating loop of `set_rc_input_pwms`: iterates the dict entries in
order over the current `rc_channel_values` array `acc`, raising `ValueError`
on an out-of-range channel id or PWM, otherwise writing slot
`channel_id - 1`. -/
def setChannels : List (ℤ × ℤ) → List ℤ → Except String (List ℤ)
  | [], acc => .ok acc
  | (cid, pwm) :: rest, acc =>
      if cid < 1 ∨ cid > 18 then
        .error "Channel id does not exist"
      else if ¬ (1100 ≤ pwm ∧ pwm ≤ 1900) then
        .error "PWM values must be between 1100 and 1900"
      else
        setChannels rest (acc.set (cid - 1).toNat pwm)

/-- Method `set_rc_input_pwms(self, pwms)`.  The dict is modelled as an association
list in iteration order.  Gating (`not connected or not armed`) runs first;
then the 18-slot array is built, defaulting every slot to the ignore sentinel
65535; finally one `rc_channels_override_send` goes out. -/
def set_rc_input_pwms (s : State) (pwms : List (ℤ × ℤ)) :
    Except String (State × List Msg) :=
  if !s.connected || !s.armed then .ok (s, [])
  else
    match setChannels pwms (List.replicate 18 65535) with
    | .error e => .error e
    | .ok chans => .ok (s, [.rcOverride chans])

/-- Python 3 `round` on an exact rational: round half to even. -/
def pyRound (q : ℚ) : ℤ :=
  let f := ⌊q⌋
  let r := q - f
  if r < 1/2 then f
  else if r > 1/2 then f + 1
  else if f % 2 = 0 then f else f + 1

/-- One iteration of the `set_rc_inputs` loop body on a single axis value:
validate `-1 ≤ val ≤ 1`, compute `round(val * 400 + 1500)`, clamp to
`[1100, 1900]`.  This is the InputMapper of the specification. -/
def inputMap (v : ℚ) : Except String ℤ :=
  if ¬ (-1 ≤ v ∧ v ≤ 1) then .error "Inputs must be between -1 and 1"
  else .ok (min (max (pyRound (v * 400 + 1500)) 1100) 1900)

/-- The loop of `set_rc_inputs`, building the `pwms` dict (as an association
list in iteration order, keyed by `channel.value`). -/
def buildPwms : List (InputChannel × ℚ) → Except String (List (ℤ × ℤ))
  | [] => .ok []
  | (ch, v) :: rest =>
      match inputMap v with
      | .error e => .error e
      | .ok pwm =>
          match buildPwms rest with
          | .error e => .error e
          | .ok tail => .ok ((ch.value, pwm) :: tail)

/-- Method `set_rc_inputs(self, values)`: map every axis value to a PWM (raising on
the first out-of-range value), then forward to `set_rc_input_pwms`. -/
def set_rc_inputs (s : State) (values : List (InputChannel × ℚ)) :
    Except String (State × List Msg) :=
  match buildPwms values with
  | .error e => .error e
  | .ok pwms => set_rc_input_pwms s pwms

/-- Method `stop_thrusters(self)`. -/
def stop_thrusters (s : State) : Except String (State × List Msg) :=
  set_rc_inputs s
    [(.FORWARD, 0), (.LATERAL, 0), (.THROTTLE, 0), (.YAW, 0),
     (.PITCH, 0), (.ROLL, 0)]

/-! Helper lemmas shared by several of the claim theorems. -/

/-- The relay command never mutates the instance state. -/
lemma set_relay_state (s : State) (r : Relay) (st ok : Bool) :
    (set_relay s r st ok).1 = s := by
  unfold set_relay; split_ifs <;> rfl

/-- The relay loop never mutates the instance state. -/
lemma relayLoop_state (oks : Relay → Bool) (l : List Relay) (s : State) :
    (relayLoop s oks l).1 = s := by
  induction l generalizing s with
  | nil => rfl
  | cons r rest ih => simp [relayLoop, set_relay_state, ih]

/-- An invalid entry anywhere in the dict makes the validating loop of
`set_rc_input_pwms` raise. -/
lemma setChannels_error_of_invalid (l : List (ℤ × ℤ)) (acc : List ℤ)
    (h : ∃ p ∈ l, p.1 < 1 ∨ 18 < p.1 ∨ p.2 < 1100 ∨ 1900 < p.2) :
    ∃ e, setChannels l acc = .error e := by
  induction l generalizing acc with
  | nil => simp at h
  | cons hd tl ih =>
      obtain ⟨p, hp, hbad⟩ := h
      obtain ⟨cid, pwm⟩ := hd
      by_cases h1 : cid < 1 ∨ cid > 18
      · exact ⟨"Channel id does not exist", by
          simp only [setChannels]; rw [if_pos h1]⟩
      · by_cases h2 : 1100 ≤ pwm ∧ pwm ≤ 1900
        · have hp2 : p ∈ tl := by
            rcases List.mem_cons.mp hp with he | hm
            · exfalso
              push_neg at h1
              subst he
              simp only at hbad
              omega
            · exact hm
          obtain ⟨e, he⟩ := ih (acc.set (cid - 1).toNat pwm) ⟨p, hp2, hbad⟩
          exact ⟨e, by
            simp only [setChannels]
            rw [if_neg h1, if_neg (not_not_intro h2)]
            exact he⟩
        · exact ⟨"PWM values must be between 1100 and 1900", by
            simp only [setChannels]; rw [if_neg h1, if_pos h2]⟩

/-- An out-of-range axis value anywhere in the input makes the
`set_rc_inputs` loop raise. -/
lemma buildPwms_error_of_invalid (l : List (InputChannel × ℚ))
    (h : ∃ p ∈ l, p.2 < -1 ∨ 1 < p.2) :
    ∃ e, buildPwms l = .error e := by
  induction l with
  | nil => simp at h
  | cons hd tl ih =>
      obtain ⟨p, hp, hbad⟩ := h
      obtain ⟨ch, v⟩ := hd
      by_cases hv : -1 ≤ v ∧ v ≤ 1
      · have hp2 : p ∈ tl := by
          rcases List.mem_cons.mp hp with he | hm
          · exfalso
            subst he
            simp only at hbad
            rcases hbad with hb | hb <;> linarith [hv.1, hv.2]
          · exact hm
        obtain ⟨e, he⟩ := ih ⟨p, hp2, hbad⟩
        exact ⟨e, by
          simp only [buildPwms, inputMap]
          rw [if_neg (not_not_intro hv), he]⟩
      · exact ⟨"Inputs must be between -1 and 1", by
          simp only [buildPwms, inputMap]; rw [if_pos hv]⟩

/-- C1: whenever `connected=false` or `armed=false`, `set_rc_input_pwms`
returns without transmitting anything on the telemetry socket, and
`set_relay` with `state=true` returns without sending anything on the relay
socket: both calls are silent no-ops with respect to transmission. -/
theorem C1_unsafe_states_transmit_nothing (s : State) (pwms : List (ℤ × ℤ))
    (r : Relay) (ok : Bool) (h : s.connected = false ∨ s.armed = false) :
    set_rc_input_pwms s pwms = .ok (s, []) ∧ set_relay s r true ok = (s, []) := by
  rcases h with h | h <;> exact ⟨by simp [set_rc_input_pwms, h], by simp [set_relay, h]⟩

theorem C1_witness :
    State.init.connected = false ∧
    set_rc_input_pwms State.init [((3 : ℤ), (1500 : ℤ))] = .ok (State.init, []) ∧
    set_relay State.init Relay.MAGNET true true = (State.init, []) :=
  ⟨rfl,
   (C1_unsafe_states_transmit_nothing State.init [(3, 1500)] Relay.MAGNET true
      (Or.inl rfl)).1,
   (C1_unsafe_states_transmit_nothing State.init [(3, 1500)] Relay.MAGNET true
      (Or.inl rfl)).2⟩

/-- C2 counterexample: from the initial state, one armed heartbeat (mode bit
`0x80` set) followed by a tick 3 seconds later with no message reaches a
state with `connected=false` and `armed=true`: the timeout transition does
not force `armed=false`, so Disconnected·Armed is reachable. -/
theorem C2_counterexample :
    (update (update State.init (some ⟨128⟩) 0).1 none 3).1.connected = false ∧
    (update (update State.init (some ⟨128⟩) 0).1 none 3).1.armed = true := by
  have h1 : (update State.init (some ⟨128⟩) 0).1
      = { lastMsgTime := some 0, connected := true, armed := true,
          relayConnectAttempted := false } := by
    simp [update, State.init]
  rw [h1]
  norm_num [update, TIMEOUT]

/-- C2 (amended): when `update()` takes the timeout transition (connected and
more than `TIMEOUT` seconds since the last message) it sets
`connected=false` and emits `disconnected`, but leaves `armed` unchanged. -/
theorem C2_timeout_disconnects_but_keeps_armed (s : State) (t now : ℚ)
    (hl : s.lastMsgTime = some t) (hc : s.connected = true)
    (ht : now - t > TIMEOUT) :
    update s none now = ({ s with connected := false }, [Event.disconnected]) ∧
    (update s none now).1.armed = s.armed := by
  have h1 : update s none now = ({ s with connected := false }, [Event.disconnected]) := by
    simp [update, hl, hc, ht]
  exact ⟨h1, by rw [h1]⟩

theorem C2_witness :
    update { lastMsgTime := some 0, connected := true, armed := true,
             relayConnectAttempted := false } none 3
      = ({ lastMsgTime := some 0, connected := false, armed := true,
           relayConnectAttempted := false }, [Event.disconnected]) :=
  (C2_timeout_disconnects_but_keeps_armed
    { lastMsgTime := some 0, connected := true, armed := true,
      relayConnectAttempted := false } 0 3 rfl rfl (by norm_num [TIMEOUT])).1

/-- C3 counterexample: while disconnected (even with `armed=true`),
`set_relay(MAGNET, false)` sends nothing on the relay socket, refuting that
relay-off messages are transmitted in every connection/arming state. -/
theorem C3_counterexample :
    set_relay { lastMsgTime := none, connected := false, armed := true,
                relayConnectAttempted := false } Relay.MAGNET false true
      = ({ lastMsgTime := none, connected := false, armed := true,
           relayConnectAttempted := false }, []) := by
  decide

/-- C3 (amended): `set_relay(id, false)` is permitted regardless of `armed`
(only `state=true` is gated on arming), but it also requires
`connected=true`; when connected, the 2-byte off message is sent whatever
the value of `armed`. -/
theorem C3_relay_off_gated_on_connection_only (s : State) (r : Relay)
    (hc : s.connected = true) :
    set_relay s r false true = (s, [Msg.relay r.value 0]) := by
  simp [set_relay, hc]

theorem C3_witness :
    set_relay { lastMsgTime := none, connected := true, armed := false,
                relayConnectAttempted := false } Relay.MAGNET false true
      = ({ lastMsgTime := none, connected := true, armed := false,
           relayConnectAttempted := false }, [Msg.relay Relay.MAGNET.value 0]) :=
  C3_relay_off_gated_on_connection_only
    { lastMsgTime := none, connected := true, armed := false,
      relayConnectAttempted := false } Relay.MAGNET rfl

/-- C4 counterexample: while disconnected, a mapping with channel id 0 and
PWM 5000 (both invalid) raises no validation error: the gating check runs
first and the call silently returns, refuting that malformed input is
rejected in every connection/arming state. -/
theorem C4_counterexample :
    set_rc_input_pwms State.init [((0 : ℤ), (5000 : ℤ))] = .ok (State.init, []) := by
  rfl

/-- C4 (amended): only when `connected=true` and `armed=true` does a mapping
containing an entry with channel id outside `[1,18]` or PWM outside
`[1100,1900]` raise a validation error; the error occurs before any
transmission (an `error` result carries no outbound message).  When not
connected and armed the call returns silently without validating. -/
theorem C4_validation_after_gating (s : State) (pwms : List (ℤ × ℤ))
    (hc : s.connected = true) (ha : s.armed = true)
    (hbad : ∃ p ∈ pwms, p.1 < 1 ∨ 18 < p.1 ∨ p.2 < 1100 ∨ 1900 < p.2) :
    ∃ e, set_rc_input_pwms s pwms = .error e := by
  obtain ⟨e, he⟩ := setChannels_error_of_invalid pwms (List.replicate 18 65535) hbad
  exact ⟨e, by unfold set_rc_input_pwms; rw [hc, ha, he]; simp⟩

theorem C4_witness :
    ∃ e, set_rc_input_pwms
      { lastMsgTime := none, connected := true, armed := true,
        relayConnectAttempted := false } [((0 : ℤ), (5000 : ℤ))] = .error e :=
  C4_validation_after_gating
    { lastMsgTime := none, connected := true, armed := true,
      relayConnectAttempted := false } [(0, 5000)] rfl rfl
    ⟨(0, 5000), by simp, by norm_num⟩

/-- Monotonicity of the round-half-to-even branch structure, abstracted over
the two floors and fractional parts. -/
lemma bankers_mono (f g : ℤ) (a b : ℚ) (hfg : f ≤ g)
    (hcase : f = g → a ≤ b) :
    (if a < 1/2 then f else if a > 1/2 then f + 1 else if f % 2 = 0 then f else f + 1)
      ≤ (if b < 1/2 then g else if b > 1/2 then g + 1 else if g % 2 = 0 then g else g + 1) := by
  rcases eq_or_lt_of_le hfg with he | hlt
  · subst he
    have hab := hcase rfl
    split_ifs <;> first | omega | linarith
  · split_ifs <;> omega

/-- Python `round` is monotonically non-decreasing. -/
lemma pyRound_mono {q r : ℚ} (h : q ≤ r) : pyRound q ≤ pyRound r := by
  have hfg : ⌊q⌋ ≤ ⌊r⌋ := Int.floor_mono h
  have hcase : ⌊q⌋ = ⌊r⌋ → q - (⌊q⌋ : ℚ) ≤ r - (⌊r⌋ : ℚ) := by
    intro he
    have hq : ((⌊q⌋ : ℚ)) = (⌊r⌋ : ℚ) := by exact_mod_cast he
    linarith
  have := bankers_mono ⌊q⌋ ⌊r⌋ (q - (⌊q⌋ : ℚ)) (r - (⌊r⌋ : ℚ)) hfg hcase
  simpa [pyRound] using this

/-- Python `round` fixes the integers. -/
lemma pyRound_int (n : ℤ) : pyRound (n : ℚ) = n := by
  simp only [pyRound, Int.floor_intCast]
  norm_num

/-- C5: on `[-1, 1]` the axis-to-PWM map of `set_rc_inputs` returns
`round(v*400+1500)` clamped to `[1100, 1900]`; every such result lies in
`[1100, 1900]`; the map is monotonically non-decreasing; it sends `-1` to
1100, `0` to 1500 and `1` to 1900; and outside `[-1, 1]` it raises a
validation error. -/
theorem C5_input_mapper_spec :
    (∀ v : ℚ, -1 ≤ v → v ≤ 1 →
      inputMap v = .ok (min (max (pyRound (v * 400 + 1500)) 1100) 1900)) ∧
    (∀ v : ℚ, ∀ rv : ℤ, inputMap v = .ok rv → 1100 ≤ rv ∧ rv ≤ 1900) ∧
    (∀ v w : ℚ, ∀ rv rw : ℤ, v ≤ w →
      inputMap v = .ok rv → inputMap w = .ok rw → rv ≤ rw) ∧
    (inputMap (-1) = .ok 1100 ∧ inputMap 0 = .ok 1500 ∧ inputMap 1 = .ok 1900) ∧
    (∀ v : ℚ, v < -1 ∨ 1 < v →
      inputMap v = .error "Inputs must be between -1 and 1") := by
  have hok : ∀ v : ℚ, -1 ≤ v → v ≤ 1 →
      inputMap v = .ok (min (max (pyRound (v * 400 + 1500)) 1100) 1900) := by
    intro v h1 h2
    unfold inputMap
    rw [if_neg (not_not_intro ⟨h1, h2⟩)]
  have hextract : ∀ v : ℚ, ∀ rv : ℤ, inputMap v = .ok rv →
      rv = min (max (pyRound (v * 400 + 1500)) 1100) 1900 := by
    intro v rv h
    unfold inputMap at h
    split_ifs at h with hcond
    cases h
    rfl
  refine ⟨hok, ?_, ?_, ?_, ?_⟩
  · intro v rv h
    rw [hextract v rv h]
    exact ⟨le_min (le_max_right _ _) (by norm_num), min_le_right _ _⟩
  · intro v w rv rw hvw hv hw
    rw [hextract v rv hv, hextract w rw hw]
    have hm : pyRound (v * 400 + 1500) ≤ pyRound (w * 400 + 1500) :=
      pyRound_mono (by linarith)
    exact min_le_min (max_le_max hm le_rfl) le_rfl
  · refine ⟨?_, ?_, ?_⟩
    · rw [hok (-1) (by norm_num) (by norm_num)]
      have h : ((-1 : ℚ) * 400 + 1500) = ((1100 : ℤ) : ℚ) := by norm_num
      rw [h, pyRound_int]
      norm_num
    · rw [hok 0 (by norm_num) (by norm_num)]
      have h : ((0 : ℚ) * 400 + 1500) = ((1500 : ℤ) : ℚ) := by norm_num
      rw [h, pyRound_int]
      norm_num
    · rw [hok 1 (by norm_num) (by norm_num)]
      have h : ((1 : ℚ) * 400 + 1500) = ((1900 : ℤ) : ℚ) := by norm_num
      rw [h, pyRound_int]
      norm_num
  · intro v h
    have hcond : ¬(-1 ≤ v ∧ v ≤ 1) := by
      rcases h with h | h <;> (intro hc; rcases hc with ⟨hc1, hc2⟩; linarith)
    unfold inputMap
    rw [if_pos hcond]

theorem C5_witness :
    inputMap (1/2) = .ok (min (max (pyRound ((1/2 : ℚ) * 400 + 1500)) 1100) 1900) ∧
    inputMap 2 = .error "Inputs must be between -1 and 1" :=
  ⟨C5_input_mapper_spec.1 (1/2) (by norm_num) (by norm_num),
   C5_input_mapper_spec.2.2.2.2 2 (Or.inr (by norm_num))⟩

/-- C9: a mapping handed to `set_rc_inputs` in which any axis value lies
outside `[-1, 1]` makes the whole call raise a validation error, in every
connection/arming state; an `error` result carries no outbound message, so
no partial packet with the valid entries is ever sent. -/
theorem C9_invalid_axis_aborts_whole_call (s : State)
    (values : List (InputChannel × ℚ))
    (h : ∃ p ∈ values, p.2 < -1 ∨ 1 < p.2) :
    ∃ e, set_rc_inputs s values = .error e := by
  obtain ⟨e, he⟩ := buildPwms_error_of_invalid values h
  exact ⟨e, by simp [set_rc_inputs, he]⟩

/-- Every message the relay loop emits is a relay-off message. -/
lemma relayLoop_msgs_off (oks : Relay → Bool) (l : List Relay) (s : State) :
    ∀ m ∈ (relayLoop s oks l).2, ∃ pin, m = Msg.relay pin 0 := by
  induction l generalizing s with
  | nil => simp [relayLoop]
  | cons r rest ih =>
      intro m hm
      simp only [relayLoop, List.mem_append] at hm
      rcases hm with hm | hm
      · have h2 : (set_relay s r false (oks r)).2 = []
            ∨ (set_relay s r false (oks r)).2 = [Msg.relay r.value 0] := by
          unfold set_relay; split_ifs <;> simp_all
        rcases h2 with h2 | h2 <;> rw [h2] at hm
        · simp at hm
        · simp at hm
          exact ⟨r.value, hm⟩
      · exact ih _ m hm

/-- When connected and every send succeeds, the relay loop sends one off
message per relay, in iteration order. -/
lemma relayLoop_msgs_all_sent (oks : Relay → Bool) (l : List Relay) (s : State)
    (hc : s.connected = true) (hok : ∀ r, oks r = true) :
    (relayLoop s oks l).2 = l.map (fun r => Msg.relay r.value 0) := by
  induction l with
  | nil => rfl
  | cons r rest ih =>
      have h1 : set_relay s r false (oks r) = (s, [Msg.relay r.value 0]) := by
        simp [set_relay, hc, hok r]
      simp [relayLoop, h1, ih]

/-- C6: one `disarm()` call produces the messages of `turn_off_relays`
followed by the disarm request, every relay-loop message is a relay-off
message (so every relay-off message precedes the disarm request), and — when
connected with all sends succeeding — the loop sends one off message for
every `Relay`, in definition order. -/
theorem C6_disarm_relays_off_before_request (s : State) (oks : Relay → Bool) :
    (disarm s oks).2 = (turn_off_relays s oks).2 ++ [Msg.disarmRequest] ∧
    (∀ m ∈ (turn_off_relays s oks).2, ∃ pin, m = Msg.relay pin 0) ∧
    (s.connected = true → (∀ r, oks r = true) →
      (turn_off_relays s oks).2 = Relay.all.map (fun r => Msg.relay r.value 0)) :=
  ⟨rfl, relayLoop_msgs_off oks Relay.all s,
   fun hc hok => relayLoop_msgs_all_sent oks Relay.all s hc hok⟩

theorem C6_witness :
    (turn_off_relays
        { lastMsgTime := none, connected := true, armed := true,
          relayConnectAttempted := false } (fun _ => true)).2
      = Relay.all.map (fun r => Msg.relay r.value 0) :=
  (C6_disarm_relays_off_before_request
      { lastMsgTime := none, connected := true, armed := true,
        relayConnectAttempted := false } (fun _ => true)).2.2 rfl (fun _ => rfl)

/-- On a successful return, `set_rc_input_pwms` leaves the state untouched. -/
lemma set_rc_input_pwms_ok_state (s : State) (pwms : List (ℤ × ℤ))
    (s2 : State) (msgs : List Msg)
    (h : set_rc_input_pwms s pwms = .ok (s2, msgs)) : s2 = s := by
  unfold set_rc_input_pwms at h
  split_ifs at h with hg
  · simp only [Except.ok.injEq, Prod.mk.injEq] at h
    exact h.1.symm
  · cases hsc : setChannels pwms (List.replicate 18 65535) with
    | error e => rw [hsc] at h; cases h
    | ok chans =>
        rw [hsc] at h
        simp only [Except.ok.injEq, Prod.mk.injEq] at h
        exact h.1.symm

/-- On a successful return, `set_rc_inputs` leaves the state untouched. -/
lemma set_rc_inputs_ok_state (s : State) (values : List (InputChannel × ℚ))
    (s2 : State) (msgs : List Msg)
    (h : set_rc_inputs s values = .ok (s2, msgs)) : s2 = s := by
  unfold set_rc_inputs at h
  cases hb : buildPwms values with
  | error e => rw [hb] at h; cases h
  | ok pwms => rw [hb] at h; exact set_rc_input_pwms_ok_state s pwms s2 msgs h

/-- C10: no command method mutates the `connected` or `armed` flags; `arm`
only flips `relayConnectAttempted`, the relay commands (including a failed
send, `ok = false`) return the state unchanged, and the RC commands return
the state unchanged on success.  Only `update()` writes the flags. -/
theorem C10_commands_preserve_flags (s : State) (r : Relay) (st ok : Bool)
    (oks : Relay → Bool) (pwms : List (ℤ × ℤ))
    (values : List (InputChannel × ℚ)) :
    ((arm s).1.connected = s.connected ∧ (arm s).1.armed = s.armed) ∧
    (set_relay s r st ok).1 = s ∧
    (turn_off_relays s oks).1 = s ∧
    (disarm s oks).1 = s ∧
    (∀ s2 msgs, set_rc_input_pwms s pwms = .ok (s2, msgs) → s2 = s) ∧
    (∀ s2 msgs, set_rc_inputs s values = .ok (s2, msgs) → s2 = s) ∧
    (∀ s2 msgs, stop_thrusters s = .ok (s2, msgs) → s2 = s) :=
  ⟨⟨rfl, rfl⟩,
   set_relay_state s r st ok,
   relayLoop_state oks Relay.all s,
   relayLoop_state oks Relay.all s,
   fun s2 msgs h => set_rc_input_pwms_ok_state s pwms s2 msgs h,
   fun s2 msgs h => set_rc_inputs_ok_state s values s2 msgs h,
   fun s2 msgs h => set_rc_inputs_ok_state s _ s2 msgs h⟩

theorem C10_witness :
    (set_relay { lastMsgTime := none, connected := true, armed := true,
                 relayConnectAttempted := false } Relay.LIGHTS true false).1
      = { lastMsgTime := none, connected := true, armed := true,
          relayConnectAttempted := false } ∧
    ({ lastMsgTime := none, connected := false, armed := false,
       relayConnectAttempted := false } : State)
      = { lastMsgTime := none, connected := false, armed := false,
          relayConnectAttempted := false } :=
  ⟨(C10_commands_preserve_flags
      { lastMsgTime := none, connected := true, armed := true,
        relayConnectAttempted := false } Relay.LIGHTS true false
      (fun _ => true) [] []).2.1,
   (C10_commands_preserve_flags
      { lastMsgTime := none, connected := false, armed := false,
        relayConnectAttempted := false } Relay.LIGHTS true false
      (fun _ => true) [] []).2.2.2.2.1
      { lastMsgTime := none, connected := false, armed := false,
        relayConnectAttempted := false } [] rfl⟩

theorem C9_witness :
    ∃ e, set_rc_inputs
      { lastMsgTime := none, connected := true, armed := true,
        relayConnectAttempted := false }
      [(InputChannel.THROTTLE, (2 : ℚ)), (InputChannel.YAW, (0 : ℚ))] = .error e :=
  C9_invalid_axis_aborts_whole_call _ _
    ⟨(InputChannel.THROTTLE, 2), by simp, by norm_num⟩


/-- Building the channel array preserves its length. -/
lemma setChannels_length (l : List (ℤ × ℤ)) (acc out : List ℤ)
    (h : setChannels l acc = .ok out) : out.length = acc.length := by
  induction l generalizing acc with
  | nil =>
      simp only [setChannels, Except.ok.injEq] at h
      rw [h]
  | cons hd tl ih =>
      obtain ⟨cid, pwm⟩ := hd
      simp only [setChannels] at h
      split_ifs at h with h1 h2
      rw [ih _ h, List.length_set]

/-- A slot whose channel id is keyed by no dict entry keeps its prior value. -/
lemma setChannels_untouched (l : List (ℤ × ℤ)) (acc out : List ℤ) (i : ℕ)
    (h : setChannels l acc = .ok out) (hno : ∀ p ∈ l, p.1 ≠ (i : ℤ) + 1) :
    out[i]? = acc[i]? := by
  induction l generalizing acc with
  | nil =>
      simp only [setChannels, Except.ok.injEq] at h
      rw [h]
  | cons hd tl ih =>
      obtain ⟨cid, pwm⟩ := hd
      simp only [setChannels] at h
      split_ifs at h with h1 h2
      have h1a : 1 ≤ cid ∧ cid ≤ 18 := by push_neg at h1; omega
      have hcid : cid ≠ (i : ℤ) + 1 := hno (cid, pwm) (List.mem_cons_self _ _)
      have hne : (cid - 1).toNat ≠ i := by omega
      rw [ih _ h (fun p hp => hno p (List.mem_cons_of_mem _ hp)),
          List.getElem?_set_ne hne]

/-- With distinct keys, each dict entry ends up in its 1-based slot. -/
lemma setChannels_written (l : List (ℤ × ℤ)) (acc out : List ℤ)
    (hnd : (l.map Prod.fst).Nodup) (hlen : acc.length = 18)
    (h : setChannels l acc = .ok out) :
    ∀ p ∈ l, out[(p.1 - 1).toNat]? = some p.2 := by
  induction l generalizing acc with
  | nil => simp
  | cons hd tl ih =>
      obtain ⟨cid, pwm⟩ := hd
      simp only [setChannels] at h
      split_ifs at h with h1 h2
      intro p hp
      simp only [List.map_cons, List.nodup_cons] at hnd
      obtain ⟨hnotin, hnd2⟩ := hnd
      have h1a : 1 ≤ cid ∧ cid ≤ 18 := by push_neg at h1; omega
      rcases List.mem_cons.mp hp with he | hptl
      · subst he
        show out[(cid - 1).toNat]? = some pwm
        have hno : ∀ q ∈ tl, q.1 ≠ (((cid - 1).toNat : ℕ) : ℤ) + 1 := by
          intro q hq hqe
          apply hnotin
          have hq1 : q.1 = cid := by omega
          rw [← hq1]
          exact List.mem_map_of_mem Prod.fst hq
        rw [setChannels_untouched tl _ out (cid - 1).toNat h hno,
            List.getElem?_set_eq_of_lt pwm (by omega)]
      · exact ih _ hnd2 (by rw [List.length_set]; exact hlen) h p hptl

/-- C7: every RC-override packet that `set_rc_input_pwms` transmits has
exactly 18 slots; a slot whose 1-based channel id is keyed by no entry of the
mapping holds the ignore sentinel 65535; and (for a mapping with distinct
keys, as a Python dict always has) the slot of each key holds exactly the PWM
given for it. -/
theorem C7_rc_override_packet_shape (s s2 : State) (pwms : List (ℤ × ℤ))
    (msgs : List Msg) (chans : List ℤ)
    (h : set_rc_input_pwms s pwms = .ok (s2, msgs))
    (hm : Msg.rcOverride chans ∈ msgs) :
    chans.length = 18 ∧
    (∀ i : ℕ, i < 18 → (∀ p ∈ pwms, p.1 ≠ (i : ℤ) + 1) → chans[i]? = some 65535) ∧
    ((pwms.map Prod.fst).Nodup → ∀ p ∈ pwms, chans[(p.1 - 1).toNat]? = some p.2) := by
  unfold set_rc_input_pwms at h
  split_ifs at h with hg
  · simp only [Except.ok.injEq, Prod.mk.injEq] at h
    rw [← h.2] at hm
    simp at hm
  · cases hsc : setChannels pwms (List.replicate 18 65535) with
    | error e => rw [hsc] at h; cases h
    | ok chans0 =>
        rw [hsc] at h
        simp only [Except.ok.injEq, Prod.mk.injEq] at h
        rw [← h.2] at hm
        simp only [List.mem_singleton, Msg.rcOverride.injEq] at hm
        subst hm
        refine ⟨?_, ?_, ?_⟩
        · rw [setChannels_length pwms _ _ hsc, List.length_replicate]
        · intro i hi hno
          rw [setChannels_untouched pwms _ _ i hsc hno,
              List.getElem?_replicate, if_pos hi]
        · intro hnd p hp
          exact setChannels_written pwms _ _ hnd (by simp) hsc p hp

theorem C7_witness :
    (([65535, 65535, 1500, 65535, 65535, 65535, 65535, 65535, 65535, 65535,
       65535, 65535, 65535, 65535, 65535, 65535, 65535, 65535] : List ℤ)).length = 18 :=
  (C7_rc_override_packet_shape
    { lastMsgTime := none, connected := true, armed := true,
      relayConnectAttempted := false }
    { lastMsgTime := none, connected := true, armed := true,
      relayConnectAttempted := false }
    [((3 : ℤ), (1500 : ℤ))]
    [Msg.rcOverride [65535, 65535, 1500, 65535, 65535, 65535, 65535, 65535,
      65535, 65535, 65535, 65535, 65535, 65535, 65535, 65535, 65535, 65535]]
    [65535, 65535, 1500, 65535, 65535, 65535, 65535, 65535, 65535, 65535,
     65535, 65535, 65535, 65535, 65535, 65535, 65535, 65535]
    rfl (by simp)).1

/-- C8: each of the four signals is emitted exactly once per actual change of
its flag during one `update()` call — so at most once per change across any
sequence of calls — and a call that changes neither flag emits nothing; in
particular from any disarmed state a heartbeat with mode bit `0x80` emits
`armed` exactly once and an immediately repeated identical heartbeat emits
nothing at all. -/
theorem C8_events_once_per_change (s : State) (msg : Option Heartbeat) (now : ℚ) :
    ((update s msg now).2.count Event.connected
        = if s.connected = false ∧ (update s msg now).1.connected = true then 1 else 0) ∧
    ((update s msg now).2.count Event.disconnected
        = if s.connected = true ∧ (update s msg now).1.connected = false then 1 else 0) ∧
    ((update s msg now).2.count Event.armed
        = if s.armed = false ∧ (update s msg now).1.armed = true then 1 else 0) ∧
    ((update s msg now).2.count Event.disarmed
        = if s.armed = true ∧ (update s msg now).1.armed = false then 1 else 0) ∧
    ((update s msg now).1.connected = s.connected →
      (update s msg now).1.armed = s.armed → (update s msg now).2 = []) ∧
    (∀ hb : Heartbeat, hb.base_mode &&& 0x80 = 0x80 → s.armed = false →
      (update s (some hb) now).2.count Event.armed = 1 ∧
      ∀ now2 : ℚ, (update (update s (some hb) now).1 (some hb) now2).2 = []) := by
  have main : ∀ m : Option Heartbeat, ∀ t : ℚ, ∀ st : State,
      ((update st m t).2.count Event.connected
          = if st.connected = false ∧ (update st m t).1.connected = true then 1 else 0) ∧
      ((update st m t).2.count Event.disconnected
          = if st.connected = true ∧ (update st m t).1.connected = false then 1 else 0) ∧
      ((update st m t).2.count Event.armed
          = if st.armed = false ∧ (update st m t).1.armed = true then 1 else 0) ∧
      ((update st m t).2.count Event.disarmed
          = if st.armed = true ∧ (update st m t).1.armed = false then 1 else 0) ∧
      ((update st m t).1.connected = st.connected →
        (update st m t).1.armed = st.armed → (update st m t).2 = []) := by
    intro m t st
    match m with
    | some hb =>
        cases hc : st.connected <;> cases ha : st.armed <;>
          cases hbm : (hb.base_mode &&& 0x80 == 0x80) <;>
            simp [update, hc, ha, hbm, List.count_cons, List.count_nil]
    | none =>
        cases hl : st.lastMsgTime with
        | none =>
            cases hc : st.connected <;> cases ha : st.armed <;>
              simp [update, hl, hc, ha]
        | some tl =>
            cases hc : st.connected with
            | true =>
                by_cases htm : t - tl > TIMEOUT
                · cases ha : st.armed <;>
                    simp [update, hl, hc, ha, htm, List.count_cons, List.count_nil]
                · cases ha : st.armed <;>
                    simp [update, hl, hc, ha, htm, List.count_cons, List.count_nil]
            | false =>
                cases ha : st.armed <;>
                  simp [update, hl, hc, ha, List.count_cons, List.count_nil]
  refine ⟨(main msg now s).1, (main msg now s).2.1, (main msg now s).2.2.1,
    (main msg now s).2.2.2.1, (main msg now s).2.2.2.2, ?_⟩
  intro hb hmode harm
  have hbm : (hb.base_mode &&& 0x80 == 0x80) = true := by
    rw [hmode]
    rfl
  constructor
  · cases hc : s.connected <;>
      simp [update, hc, harm, hbm, List.count_cons, List.count_nil]
  · intro now2
    cases hc : s.connected <;>
      simp [update, hc, harm, hbm]
theorem C8_witness :
    (update State.init (some ⟨128⟩) 0).2.count Event.armed = 1 ∧
    (update (update State.init (some ⟨128⟩) 0).1 (some ⟨128⟩) 1).2 = [] := by
  have h := (C8_events_once_per_change State.init (some ⟨128⟩) 0).2.2.2.2.2 ⟨128⟩ rfl rfl
  exact ⟨h.1, h.2 1⟩

end VehicleControl
